import Mathlib

/-!
Shallow embedding of `src/osu_mania_parser.py`, an osu!mania beatmap parser.

Modelling conventions (Python to Lean):
* Python exceptions become the `PyError` sum type; fallible code returns
  `Except PyError _`, and an uncaught exception is an `Except.error` that
  propagates through the whole parse.
* Python `int(s)` and `float(s)` are modelled for the plain decimal literal
  forms used by the `.osu` format: an optional sign followed by decimal
  digits, and for `float` an optional fractional part.  Machine floats are
  idealised as exact rationals (`ℚ`).
* Python `round` is round-half-to-even on the exact rational value (`pyRound`).
* Python `s.split(sep)` for a nonempty separator is `pySplit` (leftmost,
  non-overlapping occurrences; `pySplit` always returns a nonempty list).
* A Python bit test `(n & 2^j) != 0` on arbitrary-precision two
  complement integers equals `(n >> j) mod 2 = 1` with floor division,
  which is `pyTestBit n j` below (`Int.ediv`/`Int.emod` by a positive
  power of two are floor division and a nonnegative remainder).
* `list[i]` is `getItem` (raising `IndexError` out of range).
-/

/-- Division on `ℚ`, written on numerators and denominators so that it
evaluates by kernel reduction (the library `Rat.div` is irreducible).
`qdiv_eq_div` below proves it equal to ordinary division. -/
def qdiv (a b : ℚ) : ℚ := Rat.divInt (a.num * b.den) (a.den * b.num)

/-- Subtraction on `ℚ`, written on numerators and denominators so that it
evaluates by kernel reduction.  `qsub_eq_sub` below proves it equal to
ordinary subtraction. -/
def qsub (a b : ℚ) : ℚ := Rat.divInt (a.num * b.den - b.num * a.den) (a.den * b.den)

/-- Python exceptions raised, directly or by builtins, inside the parser. -/
inductive PyError where
  /-- ValueError raised by `int(...)` on a malformed literal. -/
  | valueErrorInt : PyError
  /-- ValueError raised by `float(...)` on a malformed literal. -/
  | valueErrorFloat : PyError
  /-- ZeroDivisionError, here from `100 / beat_length` with a zero beat length. -/
  | zeroDivisionError : PyError
  /-- IndexError from an out-of-range list subscript. -/
  | indexError : PyError
  /-- ValueError raised explicitly by `HitObject.parse`: unknown hit object type. -/
  | unknownHitObjectType : PyError
  /-- ValueError raised explicitly by the General section handler: game mode is not osu!mania. -/
  | invalidGameMode : PyError
deriving DecidableEq

/-- Auxiliary worker for `pySplit`: splits `cs` at every leftmost occurrence of
the nonempty separator `sep`.  `fuel` bounds the recursion; every step consumes
at least one character, so `fuel = cs.length` suffices and the fuel-exhausted
arm is unreachable from `pySplit`. -/
def splitGo (sep : List Char) : Nat → List Char → List Char → List (List Char)
  | 0, _, acc => [acc.reverse]
  | _ + 1, [], acc => [acc.reverse]
  | n + 1, c :: rest, acc =>
    if sep.isPrefixOf (c :: rest) then
      acc.reverse :: splitGo sep n (List.drop sep.length (c :: rest)) []
    else
      splitGo sep n rest (c :: acc)

/-- Python `s.split(sep)` for a nonempty string separator `sep`. -/
def pySplit (s : String) (sep : String) : List String :=
  (splitGo sep.data s.data.length s.data []).map String.mk

/-- Python `s.startswith(p)`. -/
def pyStartsWith (s : String) (p : String) : Bool :=
  p.data.isPrefixOf s.data

/-- Value of a list of decimal digit characters, `none` if any character is
not a digit, starting from accumulator `acc`. -/
def decDigitsAux : List Char → Nat → Option Nat
  | [], acc => some acc
  | c :: rest, acc =>
    if c.isDigit then decDigitsAux rest (acc * 10 + (c.toNat - 48)) else none

/-- Value of a nonempty list of decimal digit characters, `none` otherwise. -/
def decDigits : List Char → Option Nat
  | [] => none
  | c :: rest => decDigitsAux (c :: rest) 0

/-- Python `int(s)` for a plain decimal integer literal: an optional sign
followed by one or more digits.  (Surrounding whitespace and underscore
separators, which never occur in `.osu` numeric fields, are not modelled.) -/
def pyInt (s : String) : Except PyError Int :=
  match s.data with
  | '-' :: rest =>
    match decDigits rest with
    | some n => .ok (-(n : Int))
    | none => .error PyError.valueErrorInt
  | '+' :: rest =>
    match decDigits rest with
    | some n => .ok (n : Int)
    | none => .error PyError.valueErrorInt
  | cs =>
    match decDigits cs with
    | some n => .ok (n : Int)
    | none => .error PyError.valueErrorInt

/-- Magnitude part of a Python float literal: digits with an optional single
point, at least one digit overall, as an exact rational. -/
def pyFloatMag (cs : List Char) : Option ℚ :=
  match splitGo ['.'] cs.length cs [] with
  | [ip] => (decDigits ip).map (fun n => (n : ℚ))
  | [ip, fp] =>
    if ip = [] ∧ fp = [] then none
    else
      match (if ip = [] then some 0 else decDigits ip),
            (if fp = [] then some 0 else decDigits fp) with
      | some i, some f =>
        some (Rat.divInt ((i : Int) * (10 : Int) ^ fp.length + (f : Int))
          ((10 : Int) ^ fp.length))
      | _, _ => none
  | _ => none

/-- Python `float(s)` for plain decimal literals (optional sign, digits,
optional fractional part), idealised as an exact rational.  Exponent,
infinity and nan forms never occur in `.osu` timing fields and are not
modelled. -/
def pyFloat (s : String) : Except PyError ℚ :=
  match s.data with
  | '-' :: rest =>
    match pyFloatMag rest with
    | some q => .ok (-q)
    | none => .error PyError.valueErrorFloat
  | '+' :: rest =>
    match pyFloatMag rest with
    | some q => .ok q
    | none => .error PyError.valueErrorFloat
  | cs =>
    match pyFloatMag cs with
    | some q => .ok q
    | none => .error PyError.valueErrorFloat

/-- Floor of a rational as an integer, via Euclidean division of the
numerator by the (positive) denominator. -/
def ratFloor (q : ℚ) : Int := Int.ediv q.num (q.den : Int)

/-- Python `round(q)` on the exact value: round half to even. -/
def pyRound (q : ℚ) : Int :=
  let f := ratFloor q
  if qsub q (f : ℚ) < mkRat 1 2 then f
  else if mkRat 1 2 < qsub q (f : ℚ) then f + 1
  else if Int.emod f 2 = 0 then f else f + 1

/-- Python bit test `(n & 2^j) != 0` on a two complement arbitrary-precision
integer: bit `j` of `n`, i.e. `(n >> j) mod 2 = 1` with floor division. -/
def pyTestBit (n : Int) (j : Nat) : Bool :=
  decide (Int.emod (Int.ediv n (2 ^ j)) 2 = 1)

/-- Python list subscript `xs[i]`: IndexError when out of range. -/
def getItem (xs : List String) (i : Nat) : Except PyError String :=
  match xs.get? i with
  | some s => .ok s
  | none => .error PyError.indexError

/-- Python `int(members[i])`: subscript then integer conversion. -/
def parseIntAt (members : List String) (i : Nat) : Except PyError Int :=
  match getItem members i with
  | .error e => .error e
  | .ok s => pyInt s

/-- Python `float(members[i])`: subscript then float conversion. -/
def parseFloatAt (members : List String) (i : Nat) : Except PyError ℚ :=
  match getItem members i with
  | .error e => .error e
  | .ok s => pyFloat s

/-- Hit-sound names, the Python literal strings normal, whistle, finish, clap. -/
inductive HitSoundName where
  | normal : HitSoundName
  | whistle : HitSoundName
  | finish : HitSoundName
  | clap : HitSoundName
deriving DecidableEq

/-- Hit-object kind, the Python literal strings note and hold. -/
inductive HOType where
  | note : HOType
  | hold : HOType
deriving DecidableEq

/-- The TimingPoint dataclass of the source. -/
structure TimingPoint where
  time : Int
  velocity : ℚ
  timing_signature : Int
  sample_set : Int
  sample_index : Int
  volume : Int
  uninherited : Bool
  kiai_time : Bool
  omit_first_bar_line : Bool
  bpm : Option Int
deriving DecidableEq

/-- The HitObject dataclass of the source. -/
structure HitObject where
  type : HOType
  hit_sound : List HitSoundName
  new_combo : Bool
  combo_colors_skipped : Int
  x : Int
  y : Int
  time : Int
  end_time : Int
deriving DecidableEq

/-- TimingPoint.parse on the already comma-split line.  Mirrors the Python
body: beat_length is float(members[1]); bpm starts 0 and velocity 1.0; a
positive beat length sets bpm = round(60000 / beat_length), otherwise
velocity = abs(100 / beat_length) (a ZeroDivisionError when beat_length is
zero); effects = int(members[7]); then the constructor arguments are
evaluated in source order, and bpm is replaced by None when it equals 0. -/
def TimingPoint.parseMembers (members : List String) : Except PyError TimingPoint :=
  match parseFloatAt members 1 with
  | .error e => .error e
  | .ok beat_length =>
    match (if beat_length > 0 then
            Except.ok (pyRound (qdiv 60000 beat_length), (1 : ℚ))
          else if beat_length = 0 then
            Except.error PyError.zeroDivisionError
          else
            Except.ok ((0 : Int), |qdiv 100 beat_length|)) with
    | .error e => .error e
    | .ok (bpm, velocity) =>
      match parseIntAt members 7 with
      | .error e => .error e
      | .ok effects =>
        match parseIntAt members 0 with
        | .error e => .error e
        | .ok time =>
          match parseIntAt members 2 with
          | .error e => .error e
          | .ok timing_signature =>
            match parseIntAt members 3 with
            | .error e => .error e
            | .ok sample_set =>
              match parseIntAt members 4 with
              | .error e => .error e
              | .ok sample_index =>
                match parseIntAt members 5 with
                | .error e => .error e
                | .ok volume =>
                  match getItem members 6 with
                  | .error e => .error e
                  | .ok s6 =>
                    .ok { time := time
                          bpm := if bpm ≠ 0 then some bpm else none
                          velocity := velocity
                          timing_signature := timing_signature
                          sample_set := sample_set
                          sample_index := sample_index
                          volume := volume
                          uninherited := s6 = "1"
                          kiai_time := pyTestBit effects 0
                          omit_first_bar_line := pyTestBit effects 2 }

/-- TimingPoint.parse from the source: split the line on commas, then decode. -/
def TimingPoint.parse (line : String) : Except PyError TimingPoint :=
  TimingPoint.parseMembers (pySplit line ",")

/-- HitObject.parse on the already comma-split line.  Mirrors the Python
body: type_flags = int(members[3]); note and hold test bits 0 and 7;
new_combo tests bit 2; combo_colors_skipped = (type_flags AND 0b11100)
floor-divided by 4, which equals (type_flags >> 2) mod 8; hitsound flags
come from int(members[4]) and build the hit-sound list bit by bit with
normal as the default; then the note branch, the hold branch (end time
from the colon-split sixth field), or the unknown-type error. -/
def HitObject.parseMembers (members : List String) : Except PyError HitObject :=
  match parseIntAt members 3 with
  | .error e => .error e
  | .ok type_flags =>
    let note := pyTestBit type_flags 0
    let hold := pyTestBit type_flags 7
    let new_combo := pyTestBit type_flags 2
    let combo_colors_skipped := Int.emod (Int.ediv type_flags 4) 8
    match parseIntAt members 4 with
    | .error e => .error e
    | .ok hitsound_flags =>
      let hitsounds0 : List HitSoundName :=
        (if pyTestBit hitsound_flags 0 then [HitSoundName.normal] else []) ++
        (if pyTestBit hitsound_flags 1 then [HitSoundName.whistle] else []) ++
        (if pyTestBit hitsound_flags 2 then [HitSoundName.finish] else []) ++
        (if pyTestBit hitsound_flags 3 then [HitSoundName.clap] else [])
      let hitsounds := if hitsounds0 = [] then [HitSoundName.normal] else hitsounds0
      if note then
        match parseIntAt members 0 with
        | .error e => .error e
        | .ok x =>
          match parseIntAt members 1 with
          | .error e => .error e
          | .ok y =>
            match parseIntAt members 2 with
            | .error e => .error e
            | .ok time =>
              .ok { type := HOType.note
                    hit_sound := hitsounds
                    new_combo := new_combo
                    combo_colors_skipped := combo_colors_skipped
                    x := x
                    y := y
                    time := time
                    -- end_time = int(members[2]), the same value as time
                    end_time := time }
      else if hold then
        match parseIntAt members 0 with
        | .error e => .error e
        | .ok x =>
          match parseIntAt members 1 with
          | .error e => .error e
          | .ok y =>
            match parseIntAt members 2 with
            | .error e => .error e
            | .ok time =>
              match getItem members 5 with
              | .error e => .error e
              | .ok s5 =>
                match pyInt ((pySplit s5 ":").getD 0 "") with
                | .error e => .error e
                | .ok end_time =>
                  .ok { type := HOType.hold
                        hit_sound := hitsounds
                        new_combo := new_combo
                        combo_colors_skipped := combo_colors_skipped
                        x := x
                        y := y
                        time := time
                        end_time := end_time }
      else
        .error PyError.unknownHitObjectType

/-- HitObject.parse from the source: split the line on commas, then decode. -/
def HitObject.parse (line : String) : Except PyError HitObject :=
  HitObject.parseMembers (pySplit line ",")

/-- The Beatmap dataclass of the source, with its default field values. -/
structure Beatmap where
  title : String := ""
  artist : String := ""
  creator : String := ""
  version : String := ""
  source : String := ""
  tags : List String := []
  map_id : Int := 0
  mapset_id : Int := 0
  preview_time : Int := 0
  key_count : Int := 0
  hp_drain : ℚ := 0
  difficulty : ℚ := 0
  key_positions : List Int := []
  min_bpm : Int := 0
  max_bpm : Int := 0
  nb_notes : Nat := 0
  nb_holds : Nat := 0
  timing_points : List TimingPoint := []
  hit_objects : List HitObject := []
deriving DecidableEq

/-- The freshly constructed Beatmap() with all dataclass defaults. -/
def Beatmap.init : Beatmap := {}

/-- Backward scan of Beatmap.get_timing_point: the Python loop walks indices
from the last down to 0 and returns the first element whose time is at most
the query time, i.e. the last such element of the list.  Returns none when
no element qualifies. -/
def findLastLe (tps : List TimingPoint) (t : Int) : Option TimingPoint :=
  match tps with
  | [] => none
  | tp :: rest =>
    match findLastLe rest t with
    | some r => some r
    | none => if tp.time ≤ t then some tp else none

/-- Beatmap.get_timing_point from the source: the backward scan, with the
first element as the fallback.  On an empty list the Python code raises
IndexError at the fallback subscript; that is the `none` case here. -/
def Beatmap.get_timing_point (b : Beatmap) (time : Int) : Option TimingPoint :=
  match findLastLe b.timing_points time with
  | some tp => some tp
  | none => b.timing_points.head?

/-- Beatmap.add_timing_point from the source: parse the line, update the
min/max bpm running bounds (a zero bound means uninitialised and is
overwritten by the next value, including 0 for a bpm-less point), append
the point. -/
def Beatmap.add_timing_point (b : Beatmap) (line : String) : Except PyError Beatmap :=
  match TimingPoint.parse line with
  | .error e => .error e
  | .ok timing_point =>
    let bpm := match timing_point.bpm with
      | some v => v
      | none => 0
    let min_bpm :=
      if b.min_bpm = 0 then bpm
      else match timing_point.bpm with
        | some v => if b.min_bpm > v then bpm else b.min_bpm
        | none => b.min_bpm
    let max_bpm :=
      if b.max_bpm = 0 then bpm
      else match timing_point.bpm with
        | some v => if b.max_bpm < v then bpm else b.max_bpm
        | none => b.max_bpm
    .ok { b with min_bpm := min_bpm
                 max_bpm := max_bpm
                 timing_points := b.timing_points ++ [timing_point] }

/-- Beatmap.add_hit_object from the source: parse the line, bump the counter
of the matching variant, record a new key x position, append the object. -/
def Beatmap.add_hit_object (b : Beatmap) (line : String) : Except PyError Beatmap :=
  match HitObject.parse line with
  | .error e => .error e
  | .ok hit_object =>
    let nb_notes := if hit_object.type = HOType.note then b.nb_notes + 1 else b.nb_notes
    let nb_holds := if hit_object.type = HOType.hold then b.nb_holds + 1 else b.nb_holds
    let key_positions :=
      if hit_object.x ∈ b.key_positions then b.key_positions
      else b.key_positions ++ [hit_object.x]
    .ok { b with nb_notes := nb_notes
                 nb_holds := nb_holds
                 key_positions := key_positions
                 hit_objects := b.hit_objects ++ [hit_object] }

/-- The section-header regular expression of the source,
a left bracket, one or more ASCII alphanumerics, a right bracket, anchored
at both ends: returns the captured group when the line matches. -/
def sectionHeader? (line : String) : Option String :=
  let cs := line.data
  if cs.head? = some '[' ∧ cs.getLast? = some ']' then
    let mid := (cs.drop 1).dropLast
    if mid ≠ [] ∧ mid.all Char.isAlphanum then some (String.mk mid) else none
  else none

/-- The General section handler: split on colon-space, append an empty
string; Mode other than 3 is a fatal error, PreviewTime is stored. -/
def Beatmap.handleGeneral (b : Beatmap) (line : String) : Except PyError Beatmap :=
  let gen := pySplit line ": " ++ [""]
  let g0 := gen.getD 0 ""
  let g1 := gen.getD 1 ""
  if g0 = "Mode" then
    if g1 ≠ "3" then .error PyError.invalidGameMode else .ok b
  else if g0 = "PreviewTime" then
    match pyInt g1 with
    | .error e => .error e
    | .ok v => .ok { b with preview_time := v }
  else .ok b

/-- The Metadata section handler: split on colon (no appended empty string:
a recognised key with no colon raises IndexError, as in the source). -/
def Beatmap.handleMetadata (b : Beatmap) (line : String) : Except PyError Beatmap :=
  let mdata := pySplit line ":"
  let m0 := mdata.getD 0 ""
  if m0 = "Title" then
    match getItem mdata 1 with
    | .error e => .error e
    | .ok v => .ok { b with title := v }
  else if m0 = "Artist" then
    match getItem mdata 1 with
    | .error e => .error e
    | .ok v => .ok { b with artist := v }
  else if m0 = "Creator" then
    match getItem mdata 1 with
    | .error e => .error e
    | .ok v => .ok { b with creator := v }
  else if m0 = "Version" then
    match getItem mdata 1 with
    | .error e => .error e
    | .ok v => .ok { b with version := v }
  else if m0 = "Tags" then
    match getItem mdata 1 with
    | .error e => .error e
    | .ok v => .ok { b with tags := pySplit v " " }
  else if m0 = "BeatmapID" then
    match getItem mdata 1 with
    | .error e => .error e
    | .ok v =>
      match pyInt v with
      | .error e => .error e
      | .ok n => .ok { b with map_id := n }
  else if m0 = "BeatmapSetID" then
    match getItem mdata 1 with
    | .error e => .error e
    | .ok v =>
      match pyInt v with
      | .error e => .error e
      | .ok n => .ok { b with mapset_id := n }
  else .ok b

/-- The Difficulty section handler: split on colon, append an empty string;
HPDrainRate, CircleSize (key count) and OverallDifficulty are stored. -/
def Beatmap.handleDifficulty (b : Beatmap) (line : String) : Except PyError Beatmap :=
  let diff := pySplit line ":" ++ [""]
  let d0 := diff.getD 0 ""
  let d1 := diff.getD 1 ""
  if d0 = "HPDrainRate" then
    match pyFloat d1 with
    | .error e => .error e
    | .ok v => .ok { b with hp_drain := v }
  else if d0 = "CircleSize" then
    match pyInt d1 with
    | .error e => .error e
    | .ok v => .ok { b with key_count := v }
  else if d0 = "OverallDifficulty" then
    match pyFloat d1 with
    | .error e => .error e
    | .ok v => .ok { b with difficulty := v }
  else .ok b

/-- One iteration of the dispatch loop of parse_file_sync: a section header
updates the current section, otherwise the line goes to the handler of the
current section; unknown sections are ignored. -/
def processLine (st : String × Beatmap) (line : String) : Except PyError (String × Beatmap) :=
  match sectionHeader? line with
  | some name => .ok (name, st.2)
  | none =>
    if st.1 = "General" then
      match st.2.handleGeneral line with
      | .error e => .error e
      | .ok b => .ok (st.1, b)
    else if st.1 = "Metadata" then
      match st.2.handleMetadata line with
      | .error e => .error e
      | .ok b => .ok (st.1, b)
    else if st.1 = "Difficulty" then
      match st.2.handleDifficulty line with
      | .error e => .error e
      | .ok b => .ok (st.1, b)
    else if st.1 = "TimingPoints" then
      match st.2.add_timing_point line with
      | .error e => .error e
      | .ok b => .ok (st.1, b)
    else if st.1 = "HitObjects" then
      match st.2.add_hit_object line with
      | .error e => .error e
      | .ok b => .ok (st.1, b)
    else .ok st

/-- The line filter of parse_file_sync: split the file contents on the
Windows line terminator, drop comment lines and empty lines. -/
def fileLines (contents : String) : List String :=
  (pySplit contents "\r\n").filter (fun l => !(pyStartsWith l "//") && l != "")

/-- Python list.sort() on integers, ascending.  On a list of integers every
correct ascending sort yields the same list, so insertion sort stands in
for the library sort. -/
def pySortInts (l : List Int) : List Int :=
  List.insertionSort (· ≤ ·) l

/-- The dispatch loop of parse_file_sync over the filtered lines, starting
from the empty section and a fresh Beatmap, followed by the final ascending
sort of key_positions. -/
def parseLines (lines : List String) : Except PyError Beatmap :=
  match lines.foldlM processLine ("", Beatmap.init) with
  | .error e => .error e
  | .ok st => .ok { st.2 with key_positions := pySortInts st.2.key_positions }

/-- parse_file_sync from the source, on the file contents (reading the file
from disk, and the FileNotFoundError path, are outside the embedding). -/
def parse_file_sync (contents : String) : Except PyError Beatmap :=
  parseLines (fileLines contents)

deriving instance DecidableEq for Except

/-- The hit-sound contributions of bits 0 to 3 of the hitsound flags:
normal, whistle, finish, clap, in that order. -/
def hitSoundBits (hs : Int) : List HitSoundName :=
  (if pyTestBit hs 0 then [HitSoundName.normal] else []) ++
  (if pyTestBit hs 1 then [HitSoundName.whistle] else []) ++
  (if pyTestBit hs 2 then [HitSoundName.finish] else []) ++
  (if pyTestBit hs 3 then [HitSoundName.clap] else [])

/-- The hit-sound list as the spec describes it: each of bits 0 to 3 of the
hitsound flags contributes normal, whistle, finish, clap in that order, and
an empty result defaults to the singleton normal list. -/
def hitSoundSpecList (hs : Int) : List HitSoundName :=
  if hitSoundBits hs = [] then [HitSoundName.normal] else hitSoundBits hs

/-- A concrete timing point used to instantiate theorems: velocity 1, four
beats per measure, default samples, uninherited. -/
def mkTP (time : Int) (bpm : Option Int) : TimingPoint :=
  { time := time, velocity := 1, timing_signature := 4, sample_set := 0,
    sample_index := 0, volume := 0, uninherited := true, kiai_time := false,
    omit_first_bar_line := false, bpm := bpm }

/-- A concrete note (single hit) used to instantiate theorems. -/
def mkNote (x y time : Int) : HitObject :=
  { type := HOType.note, hit_sound := [HitSoundName.normal], new_combo := false,
    combo_colors_skipped := 0, x := x, y := y, time := time, end_time := time }

/-- A concrete hold used to instantiate theorems. -/
def mkHold (x y time end_time : Int) : HitObject :=
  { type := HOType.hold, hit_sound := [HitSoundName.normal], new_combo := false,
    combo_colors_skipped := 0, x := x, y := y, time := time, end_time := end_time }

/-- A concrete beatmap with two time-sorted timing points. -/
def bmSorted : Beatmap :=
  { timing_points := [mkTP 0 (some 120), mkTP 100 (some 120)] }

/-- A concrete beatmap whose timing points are not sorted by time. -/
def bmUnsorted : Beatmap :=
  { timing_points := [mkTP 10 none, mkTP 0 none] }

/-- A concrete note with whistle and finish hit sounds. -/
def noteWF : HitObject :=
  { type := HOType.note, hit_sound := [HitSoundName.whistle, HitSoundName.finish],
    new_combo := false, combo_colors_skipped := 0, x := 10, y := 20, time := 30,
    end_time := 30 }

/-- The beatmap parsed from a one-note file. -/
def bmOneNote : Beatmap :=
  { key_positions := [64], nb_notes := 1, hit_objects := [mkNote 64 192 350] }

/-- The beatmap parsed from a two-note file with descending x positions. -/
def bmTwoNotes : Beatmap :=
  { key_positions := [32, 64], nb_notes := 2,
    hit_objects := [mkNote 64 192 350, mkNote 32 192 500] }

/-- The beatmap parsed from a file with one bpm-carrying timing point. -/
def bmOneTp : Beatmap :=
  { timing_points := [mkTP 0 (some 120)], min_bpm := 120, max_bpm := 120 }
/-- Numerator of a rational equals the rational times its denominator. -/
theorem num_eq_mul_den (a : ℚ) : (a.num : ℚ) = a * (a.den : ℚ) := by
  have had : ((a.den : ℚ)) ≠ 0 := by exact_mod_cast a.den_nz
  exact (div_eq_iff had).mp (Rat.num_div_den a)

/-- The reducible division qdiv agrees with division on ℚ. -/
theorem qdiv_eq_div (a b : ℚ) : qdiv a b = a / b := by
  unfold qdiv
  rw [Rat.divInt_eq_div]
  have had : ((a.den : ℚ)) ≠ 0 := by exact_mod_cast a.den_nz
  rcases eq_or_ne b 0 with hb | hb
  · subst hb; push_cast; simp
  · have hbn : (b.num : ℚ) ≠ 0 := Int.cast_ne_zero.mpr (Rat.num_ne_zero.mpr hb)
    have hden : ((a.den * b.num : ℤ) : ℚ) ≠ 0 := by
      push_cast
      exact mul_ne_zero had hbn
    rw [div_eq_div_iff hden hb]
    push_cast
    rw [num_eq_mul_den a, num_eq_mul_den b]
    ring

/-- The reducible subtraction qsub agrees with subtraction on ℚ. -/
theorem qsub_eq_sub (a b : ℚ) : qsub a b = a - b := by
  unfold qsub
  rw [Rat.divInt_eq_div]
  have had : ((a.den : ℚ)) ≠ 0 := by exact_mod_cast a.den_nz
  have hbd : ((b.den : ℚ)) ≠ 0 := by exact_mod_cast b.den_nz
  rw [div_eq_iff (by push_cast; exact mul_ne_zero had hbd)]
  push_cast
  rw [num_eq_mul_den a, num_eq_mul_den b]
  ring

/-- ratFloor of a nonnegative rational is nonnegative. -/
theorem ratFloor_nonneg (q : ℚ) (h : 0 ≤ q) : 0 ≤ ratFloor q := by
  unfold ratFloor
  exact Int.ediv_nonneg (Rat.num_nonneg.mpr h) (by exact_mod_cast Nat.zero_le q.den)

/-- pyRound of a nonnegative rational is nonnegative. -/
theorem pyRound_nonneg (q : ℚ) (h : 0 ≤ q) : 0 ≤ pyRound q := by
  have hf := ratFloor_nonneg q h
  unfold pyRound
  dsimp only
  split
  · exact hf
  · split
    · omega
    · split <;> omega

/-- parseIntAt only fails with an index or an int-conversion error. -/
theorem parseIntAt_error (m : List String) (i : Nat) (e : PyError)
    (h : parseIntAt m i = .error e) :
    e = PyError.indexError ∨ e = PyError.valueErrorInt := by
  unfold parseIntAt at h
  split at h
  · rename_i e' heq
    unfold getItem at heq
    split at heq <;> simp_all
  · rename_i s hs
    unfold pyInt at h
    split at h <;> (split at h <;> simp_all)

/-- splitGo never splits when the first separator character does not occur. -/
theorem splitGo_no_sep (c0 : Char) (sep' : List Char) :
    ∀ (fuel : Nat) (cs acc : List Char), cs.length ≤ fuel → c0 ∉ cs →
      splitGo (c0 :: sep') fuel cs acc = [acc.reverse ++ cs] := by
  intro fuel
  induction fuel with
  | zero =>
    intro cs acc hlen _
    have : cs = [] := List.eq_nil_of_length_eq_zero (Nat.le_zero.mp hlen)
    subst this
    simp [splitGo]
  | succ n ih =>
    intro cs acc hlen hc
    cases cs with
    | nil => simp [splitGo]
    | cons c rest =>
      have hne : (c0 == c) = false := by
        simp only [beq_eq_false_iff_ne, ne_eq]
        intro hEq
        exact hc (hEq ▸ List.mem_cons_self c rest)
      have hpre : (c0 :: sep').isPrefixOf (c :: rest) = false := by
        simp [List.isPrefixOf, hne]
      simp only [splitGo, hpre, Bool.false_eq_true, if_false]
      rw [ih rest (c :: acc) (by simpa using hlen)
        (fun hm => hc (List.mem_cons_of_mem c hm))]
      simp

/-- pySplit returns the whole string when the first separator character does
not occur in it. -/
theorem pySplit_eq_single (s : String) (sep : String) (c0 : Char) (sep' : List Char)
    (hsep : sep.data = c0 :: sep') (hc : c0 ∉ s.data) :
    pySplit s sep = [s] := by
  unfold pySplit
  rw [hsep, splitGo_no_sep c0 sep' s.data.length s.data [] (Nat.le_refl _) hc]
  simp

/-- Every character of a line matched by the section-header pattern is a
bracket or an ASCII alphanumeric. -/
theorem sectionHeader?_chars (line : String) (nm : String)
    (h : sectionHeader? line = some nm) :
    ∀ c ∈ line.data, c = '[' ∨ c = ']' ∨ c.isAlphanum := by
  unfold sectionHeader? at h
  dsimp only at h
  split at h
  case isTrue hcond =>
    split at h
    case isTrue hmid =>
      obtain ⟨hh, hl⟩ := hcond
      obtain ⟨hne, hall⟩ := hmid
      intro c hc
      obtain ⟨rest, hcs⟩ : ∃ rest, line.data = '[' :: rest := by
        cases hcs : line.data with
        | nil => rw [hcs] at hh; simp at hh
        | cons a r =>
          rw [hcs] at hh
          simp only [List.head?_cons, Option.some.injEq] at hh
          exact ⟨r, by rw [hh]⟩
      rw [hcs] at hc hl hall
      have hrne : rest ≠ [] := by
        intro hr
        rw [hr] at hl
        simp at hl
      have hlast : rest.getLast hrne = ']' := by
        have h1 : ('[' :: rest).getLast (by simp) = ']' := by
          have h2 := List.getLast?_eq_getLast ('[' :: rest) (by simp)
          rw [h2] at hl
          exact Option.some.inj hl
        rw [List.getLast_cons hrne] at h1
        exact h1
      have hsplit : rest.dropLast ++ [']'] = rest := by
        rw [← hlast]
        exact List.dropLast_append_getLast hrne
      rcases List.mem_cons.mp hc with rfl | hc2
      · exact Or.inl rfl
      · rw [← hsplit] at hc2
        rcases List.mem_append.mp hc2 with hm | hm
        · simp only [List.drop_one, List.tail_cons] at hall
          exact Or.inr (Or.inr (List.all_eq_true.mp hall c hm))
        · simp only [List.mem_singleton] at hm
          exact Or.inr (Or.inl hm)
    case isFalse => exact absurd h (by simp)
  case isFalse => exact absurd h (by simp)

/-- A character that is not a bracket and not alphanumeric does not occur in
a line matched by the section-header pattern. -/
theorem sectionHeader?_not_mem (line : String) (nm : String)
    (h : sectionHeader? line = some nm) (c : Char)
    (hb1 : c ≠ '[') (hb2 : c ≠ ']') (hb3 : ¬ c.isAlphanum) : c ∉ line.data := by
  intro hmem
  rcases sectionHeader?_chars line nm h c hmem with h1 | h1 | h1
  · exact hb1 h1
  · exact hb2 h1
  · exact hb3 h1

/-- An invariant preserved by every successful step of f is preserved by a
successful foldlM over the Except monad. -/
theorem foldlM_inv {σ α : Type} (f : σ → α → Except PyError σ) (P : σ → Prop)
    (hstep : ∀ s a s', P s → f s a = .ok s' → P s') :
    ∀ (l : List α) (s s' : σ), P s → l.foldlM f s = .ok s' → P s' := by
  intro l
  induction l with
  | nil =>
    intro s s' hp h
    simp only [List.foldlM_nil, pure, Except.pure, Except.ok.injEq] at h
    exact h ▸ hp
  | cons a l ih =>
    intro s s' hp h
    rw [List.foldlM_cons] at h
    cases hfa : f s a with
    | error e =>
      rw [hfa] at h
      simp only [Bind.bind, Except.bind] at h
      exact absurd h (by simp)
    | ok s1 =>
      rw [hfa] at h
      simp only [Bind.bind, Except.bind] at h
      exact ih s1 s' (hstep s a s1 hp hfa) h

/-- If the fold reaches state st after pre and the next line fails, the whole
fold fails with that error. -/
theorem foldlM_reach_error {σ α : Type} (f : σ → α → Except PyError σ)
    (pre : List α) (a : α) (post : List α) (s0 st : σ) (e : PyError)
    (hpre : pre.foldlM f s0 = .ok st) (ha : f st a = .error e) :
    (pre ++ a :: post).foldlM f s0 = .error e := by
  rw [List.foldlM_append, hpre]
  simp only [Bind.bind, Except.bind]
  rw [List.foldlM_cons, ha]
  simp only [Bind.bind, Except.bind]

/-- The General handler never touches the aggregate statistics fields. -/
theorem handleGeneral_fields (b : Beatmap) (line : String) (b' : Beatmap)
    (h : b.handleGeneral line = .ok b') :
    b'.key_positions = b.key_positions ∧ b'.min_bpm = b.min_bpm ∧ b'.max_bpm = b.max_bpm ∧
    b'.nb_notes = b.nb_notes ∧ b'.nb_holds = b.nb_holds ∧
    b'.timing_points = b.timing_points ∧ b'.hit_objects = b.hit_objects := by
  unfold Beatmap.handleGeneral at h
  dsimp only at h
  repeat' split at h
  all_goals first
    | exact Except.noConfusion h
    | (injection h with h; subst h; exact ⟨rfl, rfl, rfl, rfl, rfl, rfl, rfl⟩)

/-- The Metadata handler never touches the aggregate statistics fields. -/
theorem handleMetadata_fields (b : Beatmap) (line : String) (b' : Beatmap)
    (h : b.handleMetadata line = .ok b') :
    b'.key_positions = b.key_positions ∧ b'.min_bpm = b.min_bpm ∧ b'.max_bpm = b.max_bpm ∧
    b'.nb_notes = b.nb_notes ∧ b'.nb_holds = b.nb_holds ∧
    b'.timing_points = b.timing_points ∧ b'.hit_objects = b.hit_objects := by
  unfold Beatmap.handleMetadata at h
  dsimp only at h
  repeat' split at h
  all_goals first
    | exact Except.noConfusion h
    | (injection h with h; subst h; exact ⟨rfl, rfl, rfl, rfl, rfl, rfl, rfl⟩)

/-- The Difficulty handler never touches the aggregate statistics fields. -/
theorem handleDifficulty_fields (b : Beatmap) (line : String) (b' : Beatmap)
    (h : b.handleDifficulty line = .ok b') :
    b'.key_positions = b.key_positions ∧ b'.min_bpm = b.min_bpm ∧ b'.max_bpm = b.max_bpm ∧
    b'.nb_notes = b.nb_notes ∧ b'.nb_holds = b.nb_holds ∧
    b'.timing_points = b.timing_points ∧ b'.hit_objects = b.hit_objects := by
  unfold Beatmap.handleDifficulty at h
  dsimp only at h
  repeat' split at h
  all_goals first
    | exact Except.noConfusion h
    | (injection h with h; subst h; exact ⟨rfl, rfl, rfl, rfl, rfl, rfl, rfl⟩)

/-- What a successful add_timing_point does: appends the parsed point, keeps
the hit-object fields, and updates the bpm bounds exactly as the source
does.  When the point carries no bpm the bounds are unchanged (the zero
bound is rewritten to zero). -/
theorem add_timing_point_ok (b : Beatmap) (line : String) (b' : Beatmap)
    (h : b.add_timing_point line = .ok b') :
    ∃ tp, TimingPoint.parse line = .ok tp ∧
      b'.timing_points = b.timing_points ++ [tp] ∧
      b'.hit_objects = b.hit_objects ∧ b'.key_positions = b.key_positions ∧
      b'.nb_notes = b.nb_notes ∧ b'.nb_holds = b.nb_holds ∧
      ((tp.bpm = none ∧ b'.min_bpm = b.min_bpm ∧ b'.max_bpm = b.max_bpm) ∨
       (∃ v, tp.bpm = some v ∧
         b'.min_bpm = (if b.min_bpm = 0 then v
                       else if b.min_bpm > v then v else b.min_bpm) ∧
         b'.max_bpm = (if b.max_bpm = 0 then v
                       else if b.max_bpm < v then v else b.max_bpm))) := by
  unfold Beatmap.add_timing_point at h
  split at h
  · simp at h
  · rename_i tp htp
    dsimp only at h
    injection h with h
    subst h
    refine ⟨tp, htp, rfl, rfl, rfl, rfl, rfl, ?_⟩
    cases hbpm : tp.bpm with
    | none =>
      left
      refine ⟨rfl, ?_, ?_⟩ <;>
        · simp only [hbpm]
          split <;> simp_all
    | some v =>
      right
      refine ⟨v, rfl, ?_, ?_⟩ <;> simp only [hbpm]

/-- What a successful add_hit_object does: appends the parsed object, keeps
the timing fields, extends key_positions with a new x, bumps the counter of
the variant. -/
theorem add_hit_object_ok (b : Beatmap) (line : String) (b' : Beatmap)
    (h : b.add_hit_object line = .ok b') :
    ∃ ho, HitObject.parse line = .ok ho ∧
      b'.hit_objects = b.hit_objects ++ [ho] ∧
      b'.timing_points = b.timing_points ∧ b'.min_bpm = b.min_bpm ∧ b'.max_bpm = b.max_bpm ∧
      b'.key_positions = (if ho.x ∈ b.key_positions then b.key_positions
                          else b.key_positions ++ [ho.x]) ∧
      ((ho.type = HOType.note ∧ b'.nb_notes = b.nb_notes + 1 ∧ b'.nb_holds = b.nb_holds) ∨
       (ho.type = HOType.hold ∧ b'.nb_notes = b.nb_notes ∧ b'.nb_holds = b.nb_holds + 1)) := by
  unfold Beatmap.add_hit_object at h
  split at h
  · simp at h
  · rename_i ho hho
    dsimp only at h
    injection h with h
    subst h
    refine ⟨ho, hho, rfl, rfl, rfl, rfl, rfl, ?_⟩
    cases htype : ho.type with
    | note =>
      left
      refine ⟨rfl, ?_, ?_⟩ <;> simp [htype]
    | hold =>
      right
      refine ⟨rfl, ?_, ?_⟩ <;> simp [htype]

/-- Case analysis of one dispatch step: a header switches the section, a
data line goes to the handler of the current section or is ignored. -/
theorem processLine_ok (st : String × Beatmap) (line : String) (st' : String × Beatmap)
    (h : processLine st line = .ok st') :
    (∃ nm, sectionHeader? line = some nm ∧ st' = (nm, st.2)) ∨
    (sectionHeader? line = none ∧ st'.1 = st.1 ∧
      ((st.1 = "General" ∧ st.2.handleGeneral line = .ok st'.2) ∨
       (st.1 = "Metadata" ∧ st.2.handleMetadata line = .ok st'.2) ∨
       (st.1 = "Difficulty" ∧ st.2.handleDifficulty line = .ok st'.2) ∨
       (st.1 = "TimingPoints" ∧ st.2.add_timing_point line = .ok st'.2) ∨
       (st.1 = "HitObjects" ∧ st.2.add_hit_object line = .ok st'.2) ∨
       st'.2 = st.2)) := by
  unfold processLine at h
  split at h
  · rename_i nm hsec
    injection h with h
    exact Or.inl ⟨nm, hsec, h.symm⟩
  · rename_i hsec
    right
    refine ⟨hsec, ?_⟩
    split at h
    · rename_i hG
      split at h
      · exact Except.noConfusion h
      · rename_i b hb
        injection h with h
        subst h
        exact ⟨rfl, Or.inl ⟨hG, hb⟩⟩
    · split at h
      · rename_i hM
        split at h
        · exact Except.noConfusion h
        · rename_i b hb
          injection h with h
          subst h
          exact ⟨rfl, Or.inr (Or.inl ⟨hM, hb⟩)⟩
      · split at h
        · rename_i hD
          split at h
          · exact Except.noConfusion h
          · rename_i b hb
            injection h with h
            subst h
            exact ⟨rfl, Or.inr (Or.inr (Or.inl ⟨hD, hb⟩))⟩
        · split at h
          · rename_i hT
            split at h
            · exact Except.noConfusion h
            · rename_i b hb
              injection h with h
              subst h
              exact ⟨rfl, Or.inr (Or.inr (Or.inr (Or.inl ⟨hT, hb⟩)))⟩
          · split at h
            · rename_i hH
              split at h
              · exact Except.noConfusion h
              · rename_i b hb
                injection h with h
                subst h
                exact ⟨rfl, Or.inr (Or.inr (Or.inr (Or.inr (Or.inl ⟨hH, hb⟩))))⟩
            · injection h with h
              subst h
              exact ⟨rfl, Or.inr (Or.inr (Or.inr (Or.inr (Or.inr rfl))))⟩

/-- One dispatch step either keeps all aggregate statistics fields or is an
add_timing_point or add_hit_object step. -/
theorem processLine_fields (st : String × Beatmap) (line : String) (st' : String × Beatmap)
    (h : processLine st line = .ok st') :
    (st'.2.hit_objects = st.2.hit_objects ∧ st'.2.key_positions = st.2.key_positions ∧
     st'.2.nb_notes = st.2.nb_notes ∧ st'.2.nb_holds = st.2.nb_holds ∧
     st'.2.timing_points = st.2.timing_points ∧ st'.2.min_bpm = st.2.min_bpm ∧
     st'.2.max_bpm = st.2.max_bpm) ∨
    st.2.add_timing_point line = .ok st'.2 ∨
    st.2.add_hit_object line = .ok st'.2 := by
  rcases processLine_ok st line st' h with ⟨nm, _, hst⟩ | ⟨_, _, hcase⟩
  · subst hst
    exact Or.inl ⟨rfl, rfl, rfl, rfl, rfl, rfl, rfl⟩
  · rcases hcase with ⟨_, hG⟩ | ⟨_, hM⟩ | ⟨_, hD⟩ | ⟨_, hT⟩ | ⟨_, hH⟩ | hid
    · obtain ⟨h1, h2, h3, h4, h5, h6, h7⟩ := handleGeneral_fields _ _ _ hG
      exact Or.inl ⟨h7, h1, h4, h5, h6, h2, h3⟩
    · obtain ⟨h1, h2, h3, h4, h5, h6, h7⟩ := handleMetadata_fields _ _ _ hM
      exact Or.inl ⟨h7, h1, h4, h5, h6, h2, h3⟩
    · obtain ⟨h1, h2, h3, h4, h5, h6, h7⟩ := handleDifficulty_fields _ _ _ hD
      exact Or.inl ⟨h7, h1, h4, h5, h6, h2, h3⟩
    · exact Or.inr (Or.inl hT)
    · exact Or.inr (Or.inr hH)
    · rw [hid]
      exact Or.inl ⟨rfl, rfl, rfl, rfl, rfl, rfl, rfl⟩

/-- pyInt only fails with the int-conversion error. -/
theorem pyInt_error (s : String) (e : PyError) (h : pyInt s = .error e) :
    e = PyError.valueErrorInt := by
  unfold pyInt at h
  split at h <;> (split at h <;> simp_all)

/-- getItem only fails with the index error. -/
theorem getItem_error (m : List String) (i : Nat) (e : PyError)
    (h : getItem m i = .error e) : e = PyError.indexError := by
  unfold getItem at h
  split at h <;> simp_all

/-- The spec-side hit-sound list is never empty. -/
theorem hitSoundSpecList_ne_nil (hs : Int) : hitSoundSpecList hs ≠ [] := by
  unfold hitSoundSpecList
  split
  · simp
  · assumption

/-- What a successful TimingPoint.parseMembers yields: the beat length
parsed from field 1 determines bpm and velocity exactly as the source
computes them, by the sign of the beat length alone. -/
theorem TimingPoint.parseMembers_split (members : List String) (tp : TimingPoint)
    (h : TimingPoint.parseMembers members = .ok tp) :
    ∃ b, parseFloatAt members 1 = .ok b ∧
      ((0 < b ∧
        tp.bpm = (if pyRound (qdiv 60000 b) ≠ 0 then some (pyRound (qdiv 60000 b)) else none) ∧
        tp.velocity = 1) ∨
       (b < 0 ∧ tp.bpm = none ∧ tp.velocity = |qdiv 100 b|)) := by
  unfold TimingPoint.parseMembers at h
  split at h
  · exact Except.noConfusion h
  · rename_i b hb
    refine ⟨b, hb, ?_⟩
    by_cases hpos : b > 0
    · rw [if_pos hpos] at h
      dsimp only at h
      left
      refine ⟨hpos, ?_⟩
      split at h
      · exact Except.noConfusion h
      · split at h
        · exact Except.noConfusion h
        · split at h
          · exact Except.noConfusion h
          · split at h
            · exact Except.noConfusion h
            · split at h
              · exact Except.noConfusion h
              · split at h
                · exact Except.noConfusion h
                · split at h
                  · exact Except.noConfusion h
                  · injection h with h
                    subst h
                    exact ⟨rfl, rfl⟩
    · rw [if_neg hpos] at h
      by_cases h0 : b = 0
      · rw [if_pos h0] at h
        dsimp only at h
        exact Except.noConfusion h
      · rw [if_neg h0] at h
        dsimp only at h
        right
        refine ⟨lt_of_le_of_ne (le_of_not_lt hpos) h0, ?_⟩
        split at h
        · exact Except.noConfusion h
        · split at h
          · exact Except.noConfusion h
          · split at h
            · exact Except.noConfusion h
            · split at h
              · exact Except.noConfusion h
              · split at h
                · exact Except.noConfusion h
                · split at h
                  · exact Except.noConfusion h
                  · split at h
                    · exact Except.noConfusion h
                    · injection h with h
                      subst h
                      exact ⟨by simp, rfl⟩

/-- A zero beat length makes TimingPoint.parseMembers fail with the
division-by-zero error. -/
theorem TimingPoint.parseMembers_zero (members : List String)
    (h : parseFloatAt members 1 = .ok 0) :
    TimingPoint.parseMembers members = .error PyError.zeroDivisionError := by
  unfold TimingPoint.parseMembers
  rw [h]
  simp

/-- A bpm stored by TimingPoint.parse is positive. -/
theorem TimingPoint.parse_bpm_pos (line : String) (tp : TimingPoint) (v : Int)
    (h : TimingPoint.parse line = .ok tp) (hbpm : tp.bpm = some v) : 0 < v := by
  obtain ⟨b, _, hcase⟩ := TimingPoint.parseMembers_split _ tp h
  rcases hcase with ⟨hpos, hbpm', _⟩ | ⟨_, hbpm', _⟩
  · rw [hbpm'] at hbpm
    split at hbpm
    · rename_i hne
      injection hbpm with hv
      have hq : (0 : ℚ) < qdiv 60000 b := by
        rw [qdiv_eq_div]
        exact div_pos (by norm_num) hpos
      have h0 := pyRound_nonneg _ (le_of_lt hq)
      omega
    · exact Option.noConfusion hbpm
  · rw [hbpm'] at hbpm
    exact Option.noConfusion hbpm

/-- What a successful HitObject.parseMembers yields: flags from fields 3
and 4, the hit-sound list as specified, and the note or hold variant with
the note bit taking priority. -/
theorem HitObject.parseMembers_variant (members : List String) (ho : HitObject)
    (h : HitObject.parseMembers members = .ok ho) :
    ∃ tf hs, parseIntAt members 3 = .ok tf ∧ parseIntAt members 4 = .ok hs ∧
      ho.hit_sound = hitSoundSpecList hs ∧
      ((pyTestBit tf 0 = true ∧ ho.type = HOType.note ∧ ho.end_time = ho.time) ∨
       (pyTestBit tf 0 = false ∧ pyTestBit tf 7 = true ∧ ho.type = HOType.hold ∧
        ∃ s5, getItem members 5 = .ok s5 ∧
          pyInt ((pySplit s5 ":").getD 0 "") = .ok ho.end_time)) := by
  unfold HitObject.parseMembers at h
  split at h
  · exact Except.noConfusion h
  · rename_i tf h3
    split at h
    · exact Except.noConfusion h
    · rename_i hs h4
      refine ⟨tf, hs, h3, h4, ?_⟩
      dsimp only at h
      by_cases hnote : pyTestBit tf 0 = true
      · rw [if_pos hnote] at h
        split at h
        · exact Except.noConfusion h
        · split at h
          · exact Except.noConfusion h
          · split at h
            · exact Except.noConfusion h
            · injection h with h
              subst h
              exact ⟨rfl, Or.inl ⟨hnote, rfl, rfl⟩⟩
      · rw [if_neg hnote] at h
        by_cases hhold : pyTestBit tf 7 = true
        · rw [if_pos hhold] at h
          split at h
          · exact Except.noConfusion h
          · split at h
            · exact Except.noConfusion h
            · split at h
              · exact Except.noConfusion h
              · split at h
                · exact Except.noConfusion h
                · rename_i s5 hs5
                  split at h
                  · exact Except.noConfusion h
                  · rename_i et het
                    injection h with h
                    subst h
                    exact ⟨rfl, Or.inr ⟨by simpa using hnote, hhold, rfl, s5, hs5, het⟩⟩
        · rw [if_neg hhold] at h
          exact Except.noConfusion h

/-- With both type flags clear, HitObject.parseMembers raises the
unknown-type error. -/
theorem HitObject.parseMembers_unknown (members : List String) (tf hs : Int)
    (h3 : parseIntAt members 3 = .ok tf) (h4 : parseIntAt members 4 = .ok hs)
    (hn : pyTestBit tf 0 = false) (hh : pyTestBit tf 7 = false) :
    HitObject.parseMembers members = .error PyError.unknownHitObjectType := by
  unfold HitObject.parseMembers
  rw [h3]
  dsimp only
  rw [h4]
  dsimp only
  rw [if_neg (by simp [hn]), if_neg (by simp [hh])]

/-- The unknown-type error only arises with both type flags clear. -/
theorem HitObject.parseMembers_unknown_inv (members : List String)
    (h : HitObject.parseMembers members = .error PyError.unknownHitObjectType) :
    ∃ tf, parseIntAt members 3 = .ok tf ∧
      pyTestBit tf 0 = false ∧ pyTestBit tf 7 = false := by
  unfold HitObject.parseMembers at h
  split at h
  · rename_i e he
    injection h with h
    subst h
    rcases parseIntAt_error _ _ _ he with h | h <;> exact absurd h (by simp)
  · rename_i tf h3
    refine ⟨tf, h3, ?_⟩
    split at h
    · rename_i e he
      injection h with h
      subst h
      rcases parseIntAt_error _ _ _ he with h | h <;> exact absurd h (by simp)
    · rename_i hs h4
      dsimp only at h
      by_cases hnote : pyTestBit tf 0 = true
      · rw [if_pos hnote] at h
        exfalso
        split at h
        · rename_i e he
          injection h with h
          subst h
          rcases parseIntAt_error _ _ _ he with h | h <;> exact absurd h (by simp)
        · split at h
          · rename_i e he
            injection h with h
            subst h
            rcases parseIntAt_error _ _ _ he with h | h <;> exact absurd h (by simp)
          · split at h
            · rename_i e he
              injection h with h
              subst h
              rcases parseIntAt_error _ _ _ he with h | h <;> exact absurd h (by simp)
            · exact Except.noConfusion h
      · rw [if_neg hnote] at h
        by_cases hhold : pyTestBit tf 7 = true
        · rw [if_pos hhold] at h
          exfalso
          split at h
          · rename_i e he
            injection h with h
            subst h
            rcases parseIntAt_error _ _ _ he with h | h <;> exact absurd h (by simp)
          · split at h
            · rename_i e he
              injection h with h
              subst h
              rcases parseIntAt_error _ _ _ he with h | h <;> exact absurd h (by simp)
            · split at h
              · rename_i e he
                injection h with h
                subst h
                rcases parseIntAt_error _ _ _ he with h | h <;> exact absurd h (by simp)
              · split at h
                · rename_i e he
                  injection h with h
                  subst h
                  exact absurd (getItem_error _ _ _ he) (by simp)
                · split at h
                  · rename_i e he
                    injection h with h
                    subst h
                    exact absurd (pyInt_error _ _ he) (by simp)
                  · exact Except.noConfusion h
        · exact ⟨by simpa using hnote, by simpa using hhold⟩

/-- findLastLe finds nothing exactly when no element is at or before t. -/
theorem findLastLe_eq_none (tps : List TimingPoint) (t : Int) :
    findLastLe tps t = none ↔ ∀ tp ∈ tps, ¬ tp.time ≤ t := by
  induction tps with
  | nil => simp [findLastLe]
  | cons a rest ih =>
    unfold findLastLe
    constructor
    · intro h
      split at h
      · exact Option.noConfusion h
      · rename_i hrest
        split at h
        · exact Option.noConfusion h
        · rename_i hle
          intro tp htp
          rcases List.mem_cons.mp htp with rfl | hm
          · exact hle
          · exact (ih.mp hrest) tp hm
    · intro hall
      have hrest : findLastLe rest t = none :=
        ih.mpr (fun tp hm => hall tp (List.mem_cons_of_mem a hm))
      rw [hrest]
      simp only
      rw [if_neg (hall a (List.mem_cons_self a rest))]

/-- findLastLe over a list extended on the right looks at the new last
element first. -/
theorem findLastLe_concat (tps : List TimingPoint) (tp : TimingPoint) (t : Int) :
    findLastLe (tps ++ [tp]) t =
      (if tp.time ≤ t then some tp else findLastLe tps t) := by
  induction tps with
  | nil => rfl
  | cons a rest ih =>
    simp only [List.cons_append]
    unfold findLastLe
    rw [ih]
    by_cases hle : tp.time ≤ t
    · simp [hle]
    · simp [hle]

/-- findLastLe returns the last element at or before t. -/
theorem findLastLe_eq_filter (tps : List TimingPoint) (t : Int) :
    findLastLe tps t = (tps.filter (fun tp => decide (tp.time ≤ t))).getLast? := by
  induction tps using List.reverseRecOn with
  | nil => simp [findLastLe]
  | append_singleton rest tp ih =>
    rw [findLastLe_concat]
    by_cases hle : tp.time ≤ t
    · rw [if_pos hle]
      rw [List.filter_append]
      simp [hle]
    · rw [if_neg hle]
      rw [List.filter_append]
      simp [hle, ih]

/-- A strictly time-sorted list: findLastLe returns the element whose time
equals the query exactly. -/
theorem findLastLe_of_time_eq (tps : List TimingPoint) (t : Int) :
    List.Pairwise (fun p q => p.time < q.time) tps →
    ∀ tp ∈ tps, tp.time = t → findLastLe tps t = some tp := by
  induction tps using List.reverseRecOn with
  | nil =>
    intro _ tp hm
    simp at hm
  | append_singleton rest a ih =>
    intro hsort tp hmem ht
    rw [findLastLe_concat]
    rcases List.mem_append.mp hmem with hm | hm
    · have hlt : tp.time < a.time :=
        (List.pairwise_append.mp hsort).2.2 tp hm a (List.mem_singleton.mpr rfl)
      rw [if_neg (by omega)]
      exact ih (List.pairwise_append.mp hsort).1 tp hm ht
    · simp only [List.mem_singleton] at hm
      subst hm
      rw [if_pos (le_of_eq ht)]

/-- A successful parseLines is the fold result with key_positions sorted. -/
theorem parseLines_ok (lines : List String) (b : Beatmap)
    (h : parseLines lines = .ok b) :
    ∃ st : String × Beatmap, lines.foldlM processLine ("", Beatmap.init) = .ok st ∧
      b = { st.2 with key_positions := pySortInts st.2.key_positions } := by
  unfold parseLines at h
  split at h
  · exact Except.noConfusion h
  · rename_i st hst
    injection h with h
    exact ⟨st, hst, h.symm⟩

/-- A failing fold makes parseLines fail with the same error. -/
theorem parseLines_error_of_foldlM (lines : List String) (e : PyError)
    (h : lines.foldlM processLine ("", Beatmap.init) = .error e) :
    parseLines lines = .error e := by
  unfold parseLines
  rw [h]

/-- Claim C1, corrected: a Note always has end_time equal to time, but a
Hold merely copies the integer before the first colon of the sixth field
into end_time; the parser does not enforce end_time at or after time, as
the counterexample with an earlier release time shows. -/
theorem C1_end_time (line : String) (ho : HitObject)
    (h : HitObject.parse line = .ok ho) :
    (ho.type = HOType.note → ho.end_time = ho.time) ∧
    (ho.type = HOType.hold →
      ∃ s5, getItem (pySplit line ",") 5 = .ok s5 ∧
        pyInt ((pySplit s5 ":").getD 0 "") = .ok ho.end_time) := by
  obtain ⟨tf, hs, h3, h4, hsnd, hcase⟩ := HitObject.parseMembers_variant (pySplit line ",") ho h
  rcases hcase with ⟨_, htype, hend⟩ | ⟨_, _, htype, s5, hs5, hend⟩
  · refine ⟨fun _ => hend, fun hh => ?_⟩
    rw [htype] at hh
    exact HOType.noConfusion hh
  · refine ⟨fun hn => ?_, fun _ => ⟨s5, hs5, hend⟩⟩
    rw [htype] at hn
    exact HOType.noConfusion hn

/-- Claim C1, counterexample: the claim as stated requires end_time at or
after time for holds, but the parser accepts a hold whose end time 500
precedes its start time 1000. -/
theorem C1_counterexample :
    ¬ (∀ (line : String) (ho : HitObject), HitObject.parse line = .ok ho →
        ho.type = HOType.hold → ho.time ≤ ho.end_time) := by
  intro hclaim
  exact absurd
    (hclaim "0,0,1000,128,0,500:0:0:0:0:" (mkHold 0 0 1000 500) (by decide) (by decide))
    (by decide)

/-- Claim C1, witness: the amended theorem applied to a concrete hold line. -/
theorem C1_witness :
    (HitObject.parse "192,192,500,128,0,1000:0:0:0:0:" = .ok (mkHold 192 192 500 1000)) ∧
    (((mkHold 192 192 500 1000).type = HOType.note →
       (mkHold 192 192 500 1000).end_time = (mkHold 192 192 500 1000).time) ∧
     ((mkHold 192 192 500 1000).type = HOType.hold →
       ∃ s5, getItem (pySplit "192,192,500,128,0,1000:0:0:0:0:" ",") 5 = .ok s5 ∧
         pyInt ((pySplit s5 ":").getD 0 "") = .ok (mkHold 192 192 500 1000).end_time)) :=
  ⟨by decide, C1_end_time "192,192,500,128,0,1000:0:0:0:0:" (mkHold 192 192 500 1000) (by decide)⟩

/-- Claim C3, corrected: the sign of the parsed beat length alone decides
the split; a positive beat length yields bpm = round(60000 / b) (absent
when it rounds to zero) and velocity 1; a negative one yields no bpm and
velocity 100 / the absolute beat length; a zero beat length raises the
division-by-zero error instead of returning a point. -/
theorem C3_beat_length_split (members : List String) (b : ℚ)
    (hb : parseFloatAt members 1 = .ok b) :
    (0 < b → ∀ tp, TimingPoint.parseMembers members = .ok tp →
      tp.bpm = (if pyRound (60000 / b) = 0 then none else some (pyRound (60000 / b))) ∧
      tp.velocity = 1) ∧
    (b < 0 → ∀ tp, TimingPoint.parseMembers members = .ok tp →
      tp.bpm = none ∧ tp.velocity = 100 / |b|) ∧
    (b = 0 → TimingPoint.parseMembers members = .error PyError.zeroDivisionError) := by
  refine ⟨?_, ?_, ?_⟩
  · intro hpos tp htp
    obtain ⟨b', hb', hcase⟩ := TimingPoint.parseMembers_split members tp htp
    rw [hb] at hb'
    injection hb' with hbb
    subst hbb
    rcases hcase with ⟨_, hbpm, hvel⟩ | ⟨hneg, _, _⟩
    · rw [qdiv_eq_div] at hbpm
      refine ⟨?_, hvel⟩
      rw [hbpm]
      by_cases h0 : pyRound (60000 / b) = 0
      · simp [h0]
      · simp [h0]
    · exact absurd hneg (not_lt.mpr (le_of_lt hpos))
  · intro hneg tp htp
    obtain ⟨b', hb', hcase⟩ := TimingPoint.parseMembers_split members tp htp
    rw [hb] at hb'
    injection hb' with hbb
    subst hbb
    rcases hcase with ⟨hpos, _, _⟩ | ⟨_, hbpm, hvel⟩
    · exact absurd hpos (not_lt.mpr (le_of_lt hneg))
    · refine ⟨hbpm, ?_⟩
      rw [hvel, qdiv_eq_div, abs_div]
      norm_num
  · intro h0
    subst h0
    exact TimingPoint.parseMembers_zero members hb

/-- Claim C3, counterexample: the claim as stated covers beat length zero
in its nonpositive branch, but the parser raises the division-by-zero
error there and returns no timing point at all. -/
theorem C3_counterexample :
    ¬ (∀ (members : List String) (b : ℚ), parseFloatAt members 1 = .ok b →
        b ≤ 0 → ∃ tp, TimingPoint.parseMembers members = .ok tp ∧
          tp.bpm = none ∧ tp.velocity = 100 / |b|) := by
  intro hclaim
  obtain ⟨tp, htp, _, _⟩ :=
    hclaim (pySplit "0,0,4,0,0,0,0,0" ",") 0 (by decide) (by decide)
  rw [show TimingPoint.parseMembers (pySplit "0,0,4,0,0,0,0,0" ",") =
      .error PyError.zeroDivisionError from by decide] at htp
  exact Except.noConfusion htp

/-- Claim C3, witness: the amended theorem applied to a concrete inherited
timing-point line with beat length minus fifty. -/
theorem C3_witness :
    (parseFloatAt (pySplit "1000,-50,4,2,0,40,0,0" ",") 1 = .ok (-50)) ∧
    ((-50 : ℚ) < 0 → ∀ tp,
      TimingPoint.parseMembers (pySplit "1000,-50,4,2,0,40,0,0" ",") = .ok tp →
      tp.bpm = none ∧ tp.velocity = 100 / |(-50 : ℚ)|) :=
  ⟨by decide, (C3_beat_length_split (pySplit "1000,-50,4,2,0,40,0,0" ",") (-50) (by decide)).2.1⟩

/-- Claim C4, corrected: on any nonempty timing-point list the lookup
returns the last element whose time is at most t, falling back to the
first element.  The in-particular consequences about the first point hold
under the format convention that the list is strictly ascending by time
(on an unsorted list the before-the-first-point case can return a later
element, see the counterexample); the at-or-after-last and the exact-time
cases are also proved under that convention. -/
theorem C4_get_timing_point (b : Beatmap) (t : Int) (hne : b.timing_points ≠ []) :
    b.get_timing_point t =
      ((b.timing_points.filter (fun tp => decide (tp.time ≤ t))).getLast?.orElse
        (fun _ => b.timing_points.head?)) ∧
    (List.Pairwise (fun p q => p.time < q.time) b.timing_points →
      (∀ tp0, b.timing_points.head? = some tp0 → t < tp0.time →
        b.get_timing_point t = some tp0) ∧
      (∀ tpn, b.timing_points.getLast? = some tpn → tpn.time ≤ t →
        b.get_timing_point t = some tpn) ∧
      (∀ tp ∈ b.timing_points, tp.time = t → b.get_timing_point t = some tp)) := by
  constructor
  · unfold Beatmap.get_timing_point
    rw [findLastLe_eq_filter]
    cases hfl : (b.timing_points.filter (fun tp => decide (tp.time ≤ t))).getLast? with
    | none => simp [Option.orElse]
    | some v => simp [Option.orElse]
  · intro hsort
    refine ⟨?_, ?_, ?_⟩
    · intro tp0 h0 hlt
      have hnone : findLastLe b.timing_points t = none := by
        rw [findLastLe_eq_none]
        intro tp hm
        cases htps : b.timing_points with
        | nil => rw [htps] at hm; simp at hm
        | cons a rest =>
          rw [htps] at hm h0 hsort
          simp only [List.head?_cons, Option.some.injEq] at h0
          subst h0
          rcases List.mem_cons.mp hm with rfl | hm2
          · omega
          · have := (List.pairwise_cons.mp hsort).1 tp hm2
            omega
      unfold Beatmap.get_timing_point
      rw [hnone]
      exact h0
    · intro tpn hlast hle
      have hg := List.getLast?_eq_getLast b.timing_points hne
      rw [hg] at hlast
      injection hlast with he
      have hsplit := List.dropLast_append_getLast hne
      rw [he] at hsplit
      unfold Beatmap.get_timing_point
      rw [← hsplit, findLastLe_concat, if_pos hle]
    · intro tp hm ht
      have := findLastLe_of_time_eq b.timing_points t hsort tp hm ht
      unfold Beatmap.get_timing_point
      rw [this]

/-- Claim C4, counterexample: on an unsorted list, a query before the
first point in time can return a later list element instead of the first
point, contradicting the in-particular clause of the claim. -/
theorem C4_counterexample :
    ¬ (∀ (b : Beatmap) (t : Int) (tp0 : TimingPoint), b.timing_points ≠ [] →
        b.timing_points.head? = some tp0 → t < tp0.time →
        b.get_timing_point t = some tp0) := by
  intro hclaim
  exact absurd
    (hclaim bmUnsorted 5 (mkTP 10 none) (by decide) (by decide) (by decide))
    (by decide)

/-- Claim C4, witness: the theorem applied to a concrete sorted beatmap. -/
theorem C4_witness :
    (bmSorted.timing_points ≠ []) ∧
    bmSorted.get_timing_point 50 =
      ((bmSorted.timing_points.filter (fun tp => decide (tp.time ≤ 50))).getLast?.orElse
        (fun _ => bmSorted.timing_points.head?)) :=
  ⟨by decide, (C4_get_timing_point bmSorted 50 (by decide)).1⟩

/-- The bpm-bounds invariant: either no stored point carries a bpm and both
bounds are zero, or the lower bound is positive and at most the upper. -/
theorem bpm_bounds_inv (lines : List String) (st : String × Beatmap)
    (h : lines.foldlM processLine ("", Beatmap.init) = .ok st) :
    (st.2.min_bpm = 0 ∧ st.2.max_bpm = 0 ∧ ∀ tp ∈ st.2.timing_points, tp.bpm = none) ∨
    (0 < st.2.min_bpm ∧ st.2.min_bpm ≤ st.2.max_bpm) := by
  refine foldlM_inv processLine
    (fun st : String × Beatmap =>
      (st.2.min_bpm = 0 ∧ st.2.max_bpm = 0 ∧ ∀ tp ∈ st.2.timing_points, tp.bpm = none) ∨
      (0 < st.2.min_bpm ∧ st.2.min_bpm ≤ st.2.max_bpm))
    ?_ lines ("", Beatmap.init) st ?_ h
  · intro s a s' hp hstep
    rcases processLine_fields s a s' hstep with
      ⟨_, _, _, _, htps, hmin, hmax⟩ | hT | hH
    · rw [htps, hmin, hmax]
      exact hp
    · obtain ⟨tp, hparse, htps, _, _, _, _, hupd⟩ := add_timing_point_ok s.2 a s'.2 hT
      rcases hupd with ⟨hbnone, hmin, hmax⟩ | ⟨v, hbsome, hmin, hmax⟩
      · rw [htps, hmin, hmax]
        rcases hp with ⟨h1, h2, h3⟩ | hr
        · refine Or.inl ⟨h1, h2, ?_⟩
          intro tp' hm
          rcases List.mem_append.mp hm with hm2 | hm2
          · exact h3 tp' hm2
          · simp only [List.mem_singleton] at hm2
            subst hm2
            exact hbnone
        · exact Or.inr hr
      · have hvpos : 0 < v := TimingPoint.parse_bpm_pos a tp v hparse hbsome
        rcases hp with ⟨h1, h2, _⟩ | ⟨h1, h2⟩ <;>
          · rw [hmin, hmax]
            right
            split_ifs <;> omega
    · obtain ⟨ho, _, _, htps, hmin, hmax, _, _⟩ := add_hit_object_ok s.2 a s'.2 hH
      rw [htps, hmin, hmax]
      exact hp
  · exact Or.inl ⟨rfl, rfl, by simp [Beatmap.init]⟩

/-- Claim C2, corrected: the positivity of the bpm bounds needs a timing
point that actually carries a bpm (positive beat length whose rounded bpm
is nonzero).  An uninherited point alone is not enough: with a negative
beat length it stores no bpm and leaves both bounds zero, see the
counterexample. -/
theorem C2_bpm_bounds (contents : String) (b : Beatmap)
    (h : parse_file_sync contents = .ok b)
    (hbpm : ∃ tp ∈ b.timing_points, tp.bpm.isSome) :
    0 < b.min_bpm ∧ 0 < b.max_bpm ∧ b.min_bpm ≤ b.max_bpm := by
  obtain ⟨st, hfold, hb⟩ := parseLines_ok (fileLines contents) b h
  subst hb
  rcases bpm_bounds_inv (fileLines contents) st hfold with ⟨_, _, hall⟩ | ⟨h1, h2⟩
  · obtain ⟨tp, hm, hsome⟩ := hbpm
    rw [hall tp hm] at hsome
    simp at hsome
  · exact ⟨h1, lt_of_lt_of_le h1 h2, h2⟩

/-- Claim C2, counterexample: a single uninherited timing point with a
negative beat length stores no bpm, so both bounds stay zero and are not
positive, refuting the claim as stated. -/
theorem C2_counterexample :
    ¬ (∀ (contents : String) (b : Beatmap), parse_file_sync contents = .ok b →
        (∃ tp ∈ b.timing_points, tp.uninherited = true) →
        (0 < b.min_bpm ∧ 0 < b.max_bpm ∧ b.min_bpm ≤ b.max_bpm)) := by
  intro hclaim
  exact absurd
    (hclaim "[TimingPoints]\r\n0,-100,4,0,0,0,1,0" { timing_points := [mkTP 0 none] }
      (by decide) (by decide)).1 (by decide)

/-- Claim C2, witness: the amended theorem applied to a beatmap with one
bpm-carrying timing point. -/
theorem C2_witness :
    (parse_file_sync "[TimingPoints]\r\n0,500,4,0,0,0,1,0" = .ok bmOneTp ∧
     (∃ tp ∈ bmOneTp.timing_points, tp.bpm.isSome)) ∧
    (0 < bmOneTp.min_bpm ∧ 0 < bmOneTp.max_bpm ∧ bmOneTp.min_bpm ≤ bmOneTp.max_bpm) :=
  ⟨⟨by decide, by decide⟩,
    C2_bpm_bounds "[TimingPoints]\r\n0,500,4,0,0,0,1,0" bmOneTp (by decide) (by decide)⟩

/-- Claim C5, confirmed: once the dispatcher is in the General section, a
line whose colon-space split has key Mode and value other than 3 makes the
whole parse fail with the invalid-game-mode error; no partial beatmap is
returned (the result is the bare error). -/
theorem C5_invalid_mode (pre post : List String) (line : String) (b : Beatmap)
    (hreach : pre.foldlM processLine ("", Beatmap.init) = .ok ("General", b))
    (hmode : (pySplit line ": " ++ [""]).getD 0 "" = "Mode")
    (hval : (pySplit line ": " ++ [""]).getD 1 "" ≠ "3") :
    parseLines (pre ++ line :: post) = .error PyError.invalidGameMode := by
  have hsec : sectionHeader? line = none := by
    cases hs : sectionHeader? line with
    | none => rfl
    | some nm =>
      exfalso
      have hnotmem : ':' ∉ line.data :=
        sectionHeader?_not_mem line nm hs ':' (by decide) (by decide) (by decide)
      have hsplit : pySplit line ": " = [line] :=
        pySplit_eq_single line ": " ':' [' '] rfl hnotmem
      rw [hsplit] at hmode
      simp only [List.cons_append, List.nil_append, List.getD_cons_zero] at hmode
      rw [hmode] at hs
      rw [show sectionHeader? "Mode" = none from by decide] at hs
      exact Option.noConfusion hs
  have hG : b.handleGeneral line = .error PyError.invalidGameMode := by
    unfold Beatmap.handleGeneral
    dsimp only
    rw [if_pos hmode, if_pos hval]
  have hstep : processLine ("General", b) line = .error PyError.invalidGameMode := by
    unfold processLine
    rw [hsec]
    dsimp only
    rw [if_pos rfl, hG]
  exact parseLines_error_of_foldlM (pre ++ line :: post) PyError.invalidGameMode
    (foldlM_reach_error processLine pre line post ("", Beatmap.init) ("General", b)
      PyError.invalidGameMode hreach hstep)

/-- Claim C5, witness: the theorem applied to a two-line file whose General
section sets Mode to 1. -/
theorem C5_witness :
    (List.foldlM processLine ("", Beatmap.init) ["[General]"] = .ok ("General", Beatmap.init) ∧
     (pySplit "Mode: 1" ": " ++ [""]).getD 0 "" = "Mode" ∧
     (pySplit "Mode: 1" ": " ++ [""]).getD 1 "" ≠ "3") ∧
    parseLines (["[General]"] ++ "Mode: 1" :: []) = .error PyError.invalidGameMode :=
  ⟨⟨by decide, by decide, by decide⟩,
    C5_invalid_mode ["[General]"] [] "Mode: 1" Beatmap.init (by decide) (by decide) (by decide)⟩

/-- Claim C6, confirmed: with well-formed flag fields, HitObject.parse
raises the unknown-hit-object-type error exactly when neither the note bit
0 nor the hold bit 7 is set, and that error aborts the whole parse with no
partial recovery when it occurs in the HitObjects section. -/
theorem C6_unknown_type (line : String) (tf hs : Int)
    (h3 : parseIntAt (pySplit line ",") 3 = .ok tf)
    (h4 : parseIntAt (pySplit line ",") 4 = .ok hs) :
    (HitObject.parse line = .error PyError.unknownHitObjectType ↔
      (pyTestBit tf 0 = false ∧ pyTestBit tf 7 = false)) ∧
    (∀ (pre post : List String) (b : Beatmap),
      pre.foldlM processLine ("", Beatmap.init) = .ok ("HitObjects", b) →
      HitObject.parse line = .error PyError.unknownHitObjectType →
      parseLines (pre ++ line :: post) = .error PyError.unknownHitObjectType) := by
  constructor
  · constructor
    · intro herr
      obtain ⟨tf', h3', hb0, hb7⟩ := HitObject.parseMembers_unknown_inv (pySplit line ",") herr
      rw [h3] at h3'
      injection h3' with htf
      subst htf
      exact ⟨hb0, hb7⟩
    · rintro ⟨hb0, hb7⟩
      exact HitObject.parseMembers_unknown (pySplit line ",") tf hs h3 h4 hb0 hb7
  · intro pre post b hreach herr
    have hsec : sectionHeader? line = none := by
      cases hs2 : sectionHeader? line with
      | none => rfl
      | some nm =>
        exfalso
        have hnotmem : ',' ∉ line.data :=
          sectionHeader?_not_mem line nm hs2 ',' (by decide) (by decide) (by decide)
        have hsplit : pySplit line "," = [line] :=
          pySplit_eq_single line "," ',' [] rfl hnotmem
        rw [hsplit] at h3
        rw [show parseIntAt [line] 3 = .error PyError.indexError from rfl] at h3
        exact Except.noConfusion h3
    have hH : b.add_hit_object line = .error PyError.unknownHitObjectType := by
      unfold Beatmap.add_hit_object
      rw [herr]
    have hstep : processLine ("HitObjects", b) line = .error PyError.unknownHitObjectType := by
      unfold processLine
      rw [hsec]
      dsimp only
      rw [if_neg (by decide), if_neg (by decide), if_neg (by decide), if_neg (by decide),
        if_pos rfl, hH]
    exact parseLines_error_of_foldlM (pre ++ line :: post) PyError.unknownHitObjectType
      (foldlM_reach_error processLine pre line post ("", Beatmap.init) ("HitObjects", b)
        PyError.unknownHitObjectType hreach hstep)

/-- Claim C6, witness: the iff applied to a concrete line whose type flags
set neither bit. -/
theorem C6_witness :
    (parseIntAt (pySplit "0,0,0,2,0" ",") 3 = .ok 2 ∧
     parseIntAt (pySplit "0,0,0,2,0" ",") 4 = .ok 0) ∧
    (HitObject.parse "0,0,0,2,0" = .error PyError.unknownHitObjectType ↔
      (pyTestBit 2 0 = false ∧ pyTestBit 2 7 = false)) :=
  ⟨⟨by decide, by decide⟩, (C6_unknown_type "0,0,0,2,0" 2 0 (by decide) (by decide)).1⟩

/-- Claim C7, confirmed: every accepted hit object has a nonempty hit-sound
list, built from bits 0 to 3 of the hitsound field in the order normal,
whistle, finish, clap, defaulting to the singleton normal list. -/
theorem C7_hit_sound (line : String) (ho : HitObject)
    (h : HitObject.parse line = .ok ho) :
    ho.hit_sound ≠ [] ∧
    ∃ hs, parseIntAt (pySplit line ",") 4 = .ok hs ∧
      ho.hit_sound = hitSoundSpecList hs := by
  obtain ⟨tf, hs, _, h4, hsnd, _⟩ := HitObject.parseMembers_variant (pySplit line ",") ho h
  refine ⟨?_, hs, h4, hsnd⟩
  rw [hsnd]
  exact hitSoundSpecList_ne_nil hs

/-- Claim C7, witness: the theorem applied to a note with whistle and
finish hit sounds. -/
theorem C7_witness :
    (HitObject.parse "10,20,30,1,6" = .ok noteWF) ∧
    (noteWF.hit_sound ≠ [] ∧
     ∃ hs, parseIntAt (pySplit "10,20,30,1,6" ",") 4 = .ok hs ∧
       noteWF.hit_sound = hitSoundSpecList hs) :=
  ⟨by decide, C7_hit_sound "10,20,30,1,6" noteWF (by decide)⟩

/-- Claim C8, confirmed: in every parsed beatmap the two counters add up
to the number of hit objects, and each add_hit_object call appends exactly
one object and bumps exactly one of the two counters. -/
theorem C8_counts (contents : String) (b : Beatmap)
    (h : parse_file_sync contents = .ok b) :
    b.nb_notes + b.nb_holds = b.hit_objects.length ∧
    (∀ (b0 : Beatmap) (line : String) (b' : Beatmap), b0.add_hit_object line = .ok b' →
      b'.hit_objects.length = b0.hit_objects.length + 1 ∧
      ((b'.nb_notes = b0.nb_notes + 1 ∧ b'.nb_holds = b0.nb_holds) ∨
       (b'.nb_holds = b0.nb_holds + 1 ∧ b'.nb_notes = b0.nb_notes))) := by
  constructor
  · obtain ⟨st, hfold, hb⟩ := parseLines_ok (fileLines contents) b h
    subst hb
    refine foldlM_inv processLine
      (fun st : String × Beatmap =>
        st.2.nb_notes + st.2.nb_holds = st.2.hit_objects.length)
      ?_ (fileLines contents) ("", Beatmap.init) st rfl hfold
    intro s a s' hp hstep
    rcases processLine_fields s a s' hstep with ⟨hho, _, hn, hh, _, _, _⟩ | hT | hH
    · rw [hho, hn, hh]
      exact hp
    · obtain ⟨tp, _, _, hho, _, hn, hh, _⟩ := add_timing_point_ok s.2 a s'.2 hT
      rw [hho, hn, hh]
      exact hp
    · obtain ⟨ho, _, hho, _, _, _, _, hcnt⟩ := add_hit_object_ok s.2 a s'.2 hH
      rw [hho]
      rcases hcnt with ⟨_, hn, hh⟩ | ⟨_, hn, hh⟩ <;>
        · rw [hn, hh]
          simp only [List.length_append, List.length_singleton]
          omega
  · intro b0 line b' hadd
    obtain ⟨ho, _, hho, _, _, _, _, hcnt⟩ := add_hit_object_ok b0 line b' hadd
    refine ⟨by rw [hho]; simp, ?_⟩
    rcases hcnt with ⟨_, hn, hh⟩ | ⟨_, hn, hh⟩
    · exact Or.inl ⟨hn, hh⟩
    · exact Or.inr ⟨hh, hn⟩

/-- Claim C8, witness: the count identity on a concrete one-note beatmap. -/
theorem C8_witness :
    (parse_file_sync "[HitObjects]\r\n64,192,350,1,0,0:0:0:0:" = .ok bmOneNote) ∧
    bmOneNote.nb_notes + bmOneNote.nb_holds = bmOneNote.hit_objects.length :=
  ⟨by decide, (C8_counts "[HitObjects]\r\n64,192,350,1,0,0:0:0:0:" bmOneNote (by decide)).1⟩

/-- The key-positions invariant of the dispatch loop: no duplicates, and
the recorded values are exactly the x positions of the hit objects. -/
theorem key_positions_inv (lines : List String) (st : String × Beatmap)
    (h : lines.foldlM processLine ("", Beatmap.init) = .ok st) :
    st.2.key_positions.Nodup ∧
    (∀ v, v ∈ st.2.key_positions ↔ ∃ ho ∈ st.2.hit_objects, ho.x = v) := by
  refine foldlM_inv processLine
    (fun st : String × Beatmap => st.2.key_positions.Nodup ∧
      (∀ v, v ∈ st.2.key_positions ↔ ∃ ho ∈ st.2.hit_objects, ho.x = v))
    ?_ lines ("", Beatmap.init) st ⟨List.nodup_nil, by simp [Beatmap.init]⟩ h
  intro s a s' hp hstep
  obtain ⟨hnd, hmem⟩ := hp
  rcases processLine_fields s a s' hstep with ⟨hho, hkp, _, _, _, _, _⟩ | hT | hH
  · rw [hho, hkp]
    exact ⟨hnd, hmem⟩
  · obtain ⟨tp, _, _, hho, hkp, _, _, _⟩ := add_timing_point_ok s.2 a s'.2 hT
    rw [hho, hkp]
    exact ⟨hnd, hmem⟩
  · obtain ⟨ho, _, hho, _, _, _, hkp, _⟩ := add_hit_object_ok s.2 a s'.2 hH
    rw [hho, hkp]
    by_cases hx : ho.x ∈ s.2.key_positions
    · rw [if_pos hx]
      refine ⟨hnd, fun v => ?_⟩
      rw [hmem v]
      constructor
      · rintro ⟨ho', hm, hv⟩
        exact ⟨ho', List.mem_append_left _ hm, hv⟩
      · rintro ⟨ho', hm, hv⟩
        rcases List.mem_append.mp hm with hm2 | hm2
        · exact ⟨ho', hm2, hv⟩
        · simp only [List.mem_singleton] at hm2
          subst hm2
          exact (hmem v).mp (hv ▸ hx)
    · rw [if_neg hx]
      constructor
      · simp [List.nodup_append, hnd, hx]
      · intro v
        rw [List.mem_append]
        constructor
        · rintro (hv | hv)
          · obtain ⟨ho', hm, hxeq⟩ := (hmem v).mp hv
            exact ⟨ho', List.mem_append_left _ hm, hxeq⟩
          · simp only [List.mem_singleton] at hv
            subst hv
            exact ⟨ho, List.mem_append_right _ (List.mem_singleton.mpr rfl), rfl⟩
        · rintro ⟨ho', hm, hxeq⟩
          rcases List.mem_append.mp hm with hm2 | hm2
          · exact Or.inl ((hmem v).mpr ⟨ho', hm2, hxeq⟩)
          · simp only [List.mem_singleton] at hm2
            subst hm2
            exact Or.inr (by simp [hxeq])

/-- Claim C9, confirmed: after parse_file_sync the key positions are
strictly ascending with no duplicates, and are exactly the distinct x
values of the parsed hit objects. -/
theorem C9_key_positions (contents : String) (b : Beatmap)
    (h : parse_file_sync contents = .ok b) :
    List.Pairwise (· < ·) b.key_positions ∧ b.key_positions.Nodup ∧
    (∀ v, v ∈ b.key_positions ↔ ∃ ho ∈ b.hit_objects, ho.x = v) := by
  obtain ⟨st, hfold, hb⟩ := parseLines_ok (fileLines contents) b h
  obtain ⟨hnd, hmem⟩ := key_positions_inv (fileLines contents) st hfold
  subst hb
  have hperm : (pySortInts st.2.key_positions).Perm st.2.key_positions :=
    List.perm_insertionSort (· ≤ ·) st.2.key_positions
  have hnd' : (pySortInts st.2.key_positions).Nodup := hperm.nodup_iff.mpr hnd
  have hsorted : List.Sorted (· ≤ ·) (pySortInts st.2.key_positions) :=
    List.sorted_insertionSort (· ≤ ·) st.2.key_positions
  refine ⟨?_, hnd', fun v => ?_⟩
  · exact (List.Pairwise.and hsorted hnd').imp (fun hab => lt_of_le_of_ne hab.1 hab.2)
  · rw [hperm.mem_iff]
    exact hmem v

/-- Claim C9, witness: the theorem applied to a two-note beatmap whose key
positions arrive out of order and come back sorted. -/
theorem C9_witness :
    (parse_file_sync "[HitObjects]\r\n64,192,350,1,0,0:0:0:0:\r\n32,192,500,1,0,0:0:0:0:" =
      .ok bmTwoNotes) ∧
    List.Pairwise (· < ·) bmTwoNotes.key_positions :=
  ⟨by decide,
    (C9_key_positions "[HitObjects]\r\n64,192,350,1,0,0:0:0:0:\r\n32,192,500,1,0,0:0:0:0:"
      bmTwoNotes (by decide)).1⟩

/-- Claim C10, confirmed: when both the note bit 0 and the hold bit 7 are
set, the note bit wins: the parser returns a Note whose end_time equals
its time, reads nothing from the sixth field, and raises no error. -/
theorem C10_note_priority (members : List String) (tf hs x y t : Int)
    (h3 : parseIntAt members 3 = .ok tf) (h4 : parseIntAt members 4 = .ok hs)
    (h0 : parseIntAt members 0 = .ok x) (h1 : parseIntAt members 1 = .ok y)
    (h2 : parseIntAt members 2 = .ok t)
    (hb0 : pyTestBit tf 0 = true) (hb7 : pyTestBit tf 7 = true) :
    HitObject.parseMembers members =
      .ok { type := HOType.note, hit_sound := hitSoundSpecList hs,
            new_combo := pyTestBit tf 2,
            combo_colors_skipped := Int.emod (Int.ediv tf 4) 8,
            x := x, y := y, time := t, end_time := t } := by
  unfold HitObject.parseMembers
  rw [h3]
  dsimp only
  rw [h4]
  dsimp only
  rw [if_pos hb0, h0]
  dsimp only
  rw [h1]
  dsimp only
  rw [h2]
  dsimp only
  rw [show hitSoundSpecList hs =
    (if hitSoundBits hs = [] then [HitSoundName.normal] else hitSoundBits hs) from rfl,
    show hitSoundBits hs =
      ((if pyTestBit hs 0 then [HitSoundName.normal] else []) ++
       (if pyTestBit hs 1 then [HitSoundName.whistle] else []) ++
       (if pyTestBit hs 2 then [HitSoundName.finish] else []) ++
       (if pyTestBit hs 3 then [HitSoundName.clap] else [])) from rfl]

/-- Claim C10, witness: the theorem applied to a five-field line (the
sixth field is absent altogether) with type flags 129. -/
theorem C10_witness :
    (parseIntAt (pySplit "0,0,100,129,0" ",") 3 = .ok 129 ∧
     parseIntAt (pySplit "0,0,100,129,0" ",") 4 = .ok 0 ∧
     parseIntAt (pySplit "0,0,100,129,0" ",") 0 = .ok 0 ∧
     parseIntAt (pySplit "0,0,100,129,0" ",") 1 = .ok 0 ∧
     parseIntAt (pySplit "0,0,100,129,0" ",") 2 = .ok 100 ∧
     pyTestBit 129 0 = true ∧ pyTestBit 129 7 = true) ∧
    HitObject.parseMembers (pySplit "0,0,100,129,0" ",") =
      .ok { type := HOType.note, hit_sound := hitSoundSpecList 0,
            new_combo := pyTestBit 129 2,
            combo_colors_skipped := Int.emod (Int.ediv 129 4) 8,
            x := 0, y := 0, time := 100, end_time := 100 } :=
  ⟨⟨by decide, by decide, by decide, by decide, by decide, by decide, by decide⟩,
    C10_note_priority (pySplit "0,0,100,129,0" ",") 129 0 0 0 100 (by decide) (by decide)
      (by decide) (by decide) (by decide) (by decide) (by decide)⟩
